import Mathlib

/-!
# Verification of the text2sql query-processing core

Shallow embedding of the repository's query-processing pipeline:

* `app/core/text2sql.py` — `Text2SQLProcessor.process`, the orchestrator
  (database resolution, schema retrieval with fallback, SQL generation,
  conditional execution, single corrective retry, trace assembly);
* `app/llm/providers.py` — `LLMProvider._extract_clean_sql` and the
  response-parsing logic shared by the provider `generate_sql` methods.

Collaborators (LLM registry, database registry, adapters, vector index,
completion backends) are external per the spec; they are modelled as an
`Env` of possibly-failing functions (`Except String` mirrors a Python
call that may raise, the error payload being `str(e)`).  Python strings
at the orchestrator level are opaque and modelled by `String`; the
character-level parsing functions of `providers.py` are modelled over
`List Char`.
-/

set_option maxRecDepth 8000

namespace TextToSql

/-! ## Data model (`app/core/models.py`) -/

/-- `ColumnInfo` of `app/core/models.py`. -/
structure ColumnInfo where
  name : String
  data_type : String
  description : Option String := none
  is_primary_key : Bool := false
  is_foreign_key : Bool := false
  references : Option String := none
deriving DecidableEq, Repr

/-- `TableSchema` of `app/core/models.py`. -/
structure TableSchema where
  name : String
  description : Option String := none
  columns : List ColumnInfo
deriving DecidableEq, Repr

/-- `DatabaseInfo` of `app/core/models.py`. -/
structure DatabaseInfo where
  id : String
  name : String
  type : String
  description : Option String := none
  tables : List TableSchema := []
deriving DecidableEq, Repr

/-- One entry of `DatabaseManager.list_databases` (`app/db/manager.py`,
lines 90-104): a dict with keys id/name/type/description/connected. -/
structure DBListing where
  id : String
  name : String
  type : String
  description : Option String := none
  connected : Bool := true
deriving DecidableEq, Repr

/-- The dict returned by the adapters' `execute_query` (and forwarded by
`app.utils.db_utils.execute_sql`): keys `columns` and `rows`.  Row cells
are arbitrary Python scalars; they are opaque to the core, modelled as
`String`. -/
structure ResultData where
  columns : List String
  rows : List (List String)
deriving DecidableEq, Repr

/-- `TraceData` of `app/core/models.py`, with its field defaults. -/
structure TraceData where
  reasoning : String := ""
  retrieved_schemas : List TableSchema := []
  generated_sql : String := ""
  execution_result : Option ResultData := none
  errors : List String := []
  attempts : Nat := 1
deriving DecidableEq, Repr

/-- `QueryResult` of `app/core/models.py`. -/
structure QueryResult where
  columns : List String
  rows : List (List String)
  row_count : Nat
deriving DecidableEq, Repr

/-- `QueryResponse` of `app/core/models.py`. -/
structure QueryResponse where
  query : String
  sql : String
  result : Option QueryResult := none
  database_id : Option String := none
  llm_provider : String
  trace : TraceData
  error : Option String := none
  success : Bool
deriving DecidableEq, Repr

/-! ## Collaborator environment and processor state -/

/-- Arguments of one `llm.generate_sql(...)` call
(`LLMProvider.generate_sql` in `app/llm/providers.py`): fresh mode has
`error = none`, corrective mode has `error = some _`. -/
structure GenArgs where
  query : String
  tables : List TableSchema
  error : Option String := none
  previous_sql : Option String := none
deriving DecidableEq, Repr

/-- The LLM handle returned by `llm_manager.get_llm`: its `generate_sql`
method, which may raise. -/
abbrev LLMFn := GenArgs → Except String (String × String)

/-- One request's view of the external collaborators, each modelled as a
possibly-raising call (`.error msg` stands for a raised exception with
`str(e) = msg`).

* `getLLM` — `self.llm_manager.get_llm(self.llm_provider)`;
* `listDatabases` — `self.db_manager.list_databases()`;
* `getDatabaseInfo` — `self.db_manager.get_database_info(id)`
  (`.ok none` models a `None` return);
* `initVectorStore` — whether the `VectorStore()` constructor succeeds
  inside `_init_vector_store`;
* `searchTables` — `self.vector_store.search_tables(query, database_id)`;
* `executeSql` — `execute_sql(sql, database_id, db_manager)`
  (`app/utils/db_utils.py`); the first argument is the number of prior
  executor calls in this request (0 = first execution, 1 = the
  corrective re-execution), modelling a stateful executor stub;
  `.ok none` models a `None` result (`execute_sql` is typed
  `Optional[Dict]`). -/
structure Env where
  getLLM : Except String LLMFn
  listDatabases : Except String (List DBListing)
  getDatabaseInfo : String → Except String (Option DatabaseInfo)
  initVectorStore : Bool
  searchTables : String → String → Except String (List TableSchema)
  executeSql : Nat → String → String → Except String (Option ResultData)

/-- The mutable fields of a `Text2SQLProcessor` instance
(`__init__`, `app/core/text2sql.py` lines 14-21).  `db_manager` and
`llm_manager` are collaborator handles, never reassigned by `process`;
they are represented by `Env`.  `vector_store` holds `None` or a
`VectorStore` instance; only its none-ness is observable, so it is a
`Bool` (`true` = initialized). -/
structure ProcState where
  llm_provider : String
  database_id : Option String
  vector_store : Bool
deriving DecidableEq, Repr

/-- Python truthiness test `not self.database_id`: true for `None` and
for the empty string. -/
def pyFalsyStrOpt : Option String → Bool
  | none => true
  | some s => s == ""

/-- The failure `QueryResponse` built by the outer `except` handler of
`process` (`app/core/text2sql.py` lines 161-172). -/
def failResp (query : String) (st : ProcState) (trace : TraceData) (e : String) :
    QueryResponse :=
  { query := query
    sql := ""
    result := none
    database_id := st.database_id
    llm_provider := st.llm_provider
    trace := trace
    error := some e
    success := false }

/-- `Text2SQLProcessor._init_vector_store` (lines 23-34): caches the
vector store on first success, returns whether a store is available;
a constructor failure is absorbed (returns `false`). -/
def initVectorStoreStep (env : Env) (st : ProcState) : Bool × ProcState :=
  if st.vector_store then (true, st)
  else if env.initVectorStore then (true, { st with vector_store := true })
  else (false, st)

/-- The schema-retrieval step of `process` (lines 61-77): start from
`db_info.tables`; if the vector store is available, try semantic search;
a raised search error is absorbed (logged) and an empty result is
ignored, falling back to the full table list. -/
def retrieveTables (env : Env) (st : ProcState) (query dbid : String)
    (db_info : DatabaseInfo) : List TableSchema × ProcState :=
  let step := initVectorStoreStep env st
  if step.1 then
    match env.searchTables query dbid with
    | .error _ => (db_info.tables, step.2)
    | .ok semantic_tables =>
        (if semantic_tables.isEmpty then db_info.tables else semantic_tables, step.2)
  else (db_info.tables, step.2)

/-- `QueryResult(columns=.., rows=.., row_count=len(rows))` as built at
lines 100-104 / 138-143. -/
def mkResult (rd : ResultData) : QueryResult :=
  { columns := rd.columns, rows := rd.rows, row_count := rd.rows.length }

/-- `Text2SQLProcessor.process` (`app/core/text2sql.py` lines 36-172),
generalized over the retry ceiling: the source compares
`trace.attempts < 3` at line 112; `processCeil c` uses `< c` so that the
design note "the corrective path executes at most once regardless of the
ceiling value" is statable.  `process` below instantiates the literal 3.

Returns the `QueryResponse` together with the processor state after the
call (`self.database_id` and `self.vector_store` may have been written).
The outer `try/except` of the source corresponds to the `failResp`
branches; the partial trace built so far flows into them. -/
def processCeil (ceiling : Nat) (env : Env) (st0 : ProcState) (query : String)
    (should_execute_sql : Bool) : QueryResponse × ProcState :=
  let trace0 : TraceData := {}
  -- llm = await self.llm_manager.get_llm(self.llm_provider)
  match env.getLLM with
  | .error e => (failResp query st0 trace0 e, st0)
  | .ok llm =>
    -- if not self.database_id: use the first listed database
    let step1 : Except String ProcState :=
      if pyFalsyStrOpt st0.database_id then
        match env.listDatabases with
        | .error e => .error e
        | .ok [] => .error "No database connections available"
        | .ok (d :: _) => .ok { st0 with database_id := some d.id }
      else .ok st0
    match step1 with
    | .error e => (failResp query st0 trace0 e, st0)
    | .ok st1 =>
      -- db_info = await self.db_manager.get_database_info(self.database_id)
      let dbid := st1.database_id.getD ""
      match env.getDatabaseInfo dbid with
      | .error e => (failResp query st1 trace0 e, st1)
      | .ok none =>
          (failResp query st1 trace0 ("Database with ID " ++ dbid ++ " not found"), st1)
      | .ok (some db_info) =>
        let retr := retrieveTables env st1 query dbid db_info
        let relevant_tables := retr.1
        let st2 := retr.2
        let trace1 := { trace0 with retrieved_schemas := relevant_tables }
        -- reasoning, sql = await llm.generate_sql(query=query, tables=relevant_tables)
        match llm { query := query, tables := relevant_tables } with
        | .error e => (failResp query st2 trace1 e, st2)
        | .ok (reasoning, sql) =>
          let trace2 := { trace1 with reasoning := reasoning, generated_sql := sql }
          if should_execute_sql then
            match env.executeSql 0 sql dbid with
            | .ok result_data =>
              let trace3 := { trace2 with execution_result := result_data }
              ({ query := query
                 sql := sql
                 result := result_data.map mkResult
                 database_id := st2.database_id
                 llm_provider := st2.llm_provider
                 trace := trace3
                 error := none
                 success := true }, st2)
            | .error e =>
              let trace3 := { trace2 with errors := trace2.errors ++ [e] }
              -- if trace.attempts < 3: single corrective round
              if trace3.attempts < ceiling then
                let trace4 := { trace3 with attempts := trace3.attempts + 1 }
                match llm { query := query, tables := relevant_tables,
                            error := some e, previous_sql := some sql } with
                | .error ge => (failResp query st2 trace4 ge, st2)
                | .ok (retry_reasoning, retry_sql) =>
                  let trace5 := { trace4 with
                    reasoning := trace4.reasoning ++ "\n\nRetry attempt "
                      ++ toString trace4.attempts ++ ":\n" ++ retry_reasoning
                    generated_sql := retry_sql }
                  match env.executeSql 1 retry_sql dbid with
                  | .ok result_data =>
                    let trace6 := { trace5 with execution_result := result_data }
                    ({ query := query
                       sql := retry_sql
                       result := result_data.map mkResult
                       database_id := st2.database_id
                       llm_provider := st2.llm_provider
                       trace := trace6
                       error := none
                       success := true }, st2)
                  | .error re =>
                    let trace6 := { trace5 with errors := trace5.errors ++ [re] }
                    ({ query := query
                       sql := sql
                       result := none
                       database_id := st2.database_id
                       llm_provider := st2.llm_provider
                       trace := trace6
                       error := some re
                       success := false }, st2)
              else
                ({ query := query
                   sql := sql
                   result := none
                   database_id := st2.database_id
                   llm_provider := st2.llm_provider
                   trace := trace3
                   error := some e
                   success := false }, st2)
          else
            ({ query := query
               sql := sql
               result := none
               database_id := st2.database_id
               llm_provider := st2.llm_provider
               trace := trace2
               error := none
               success := true }, st2)

/-- `Text2SQLProcessor.process` with the source's literal retry ceiling 3. -/
def process (env : Env) (st0 : ProcState) (query : String)
    (should_execute_sql : Bool) : QueryResponse × ProcState :=
  processCeil 3 env st0 query should_execute_sql

/-! ## Concrete collaborator stubs

Closed instances used by the witness and counterexample theorems below;
they play the role of the test doubles described in the spec's
"testable properties" section. -/

/-- A one-table schema stub. -/
def wTable : TableSchema := { name := "users", columns := [] }

/-- A database descriptor stub with one table. -/
def wInfo : DatabaseInfo :=
  { id := "a", name := "A", type := "sqlite", tables := [wTable] }

/-- Listing entry `{id:"a"}`. -/
def dbA : DBListing := { id := "a", name := "A", type := "sqlite" }

/-- Listing entry `{id:"b"}`. -/
def dbB : DBListing := { id := "b", name := "B", type := "sqlite" }

/-- Listing entry with an empty-string id. -/
def dbEmptyId : DBListing := { id := "", name := "E", type := "sqlite" }

/-- A deterministic generator stub. -/
def wGenFresh : LLMFn := fun _ => .ok ("mock query", "SELECT 1")

/-- A generator stub returning empty SQL (generation degraded). -/
def wGenEmptySql : LLMFn := fun _ => .ok ("mock query", "")

/-- A generator stub distinguishing fresh from corrective mode. -/
def wGenRetry : LLMFn := fun args =>
  match args.error with
  | none => .ok ("r1", "S1")
  | some _ => .ok ("r2", "S2")

/-- An execution outcome stub. -/
def wRD : ResultData := { columns := ["id"], rows := [["1"], ["2"]] }

/-- Processor state with a resolved database id. -/
def stSome : ProcState :=
  { llm_provider := "openai", database_id := some "a", vector_store := false }

/-- Processor state of a fresh processor with no database id. -/
def stNone : ProcState :=
  { llm_provider := "openai", database_id := none, vector_store := false }

/-- Environment whose LLM lookup raises. -/
def envLlmDown : Env :=
  { getLLM := .error "no llm"
    listDatabases := .ok []
    getDatabaseInfo := fun _ => .ok none
    initVectorStore := false
    searchTables := fun _ _ => .error "down"
    executeSql := fun _ _ _ => .error "unused" }

/-- Environment for the skip-execution scenario (generator returns empty
SQL, execution never requested). -/
def envSkip : Env :=
  { getLLM := .ok wGenEmptySql
    listDatabases := .ok []
    getDatabaseInfo := fun _ => .ok (some wInfo)
    initVectorStore := false
    searchTables := fun _ _ => .error "index unavailable"
    executeSql := fun _ _ _ => .error "unused" }

/-- Environment whose executor fails on the first call and succeeds on
the second. -/
def envRetryOk : Env :=
  { getLLM := .ok wGenRetry
    listDatabases := .ok []
    getDatabaseInfo := fun _ => .ok (some wInfo)
    initVectorStore := false
    searchTables := fun _ _ => .error "down"
    executeSql := fun n _ _ => if n == 0 then .error "err one" else .ok (some wRD) }

/-- Environment whose executor always fails. -/
def envRetryFail : Env :=
  { getLLM := .ok wGenRetry
    listDatabases := .ok []
    getDatabaseInfo := fun _ => .ok (some wInfo)
    initVectorStore := false
    searchTables := fun _ _ => .error "down"
    executeSql := fun n _ _ => if n == 0 then .error "err one" else .error "err two" }

/-- Environment whose vector index always raises. -/
def envFallback : Env :=
  { getLLM := .ok wGenFresh
    listDatabases := .ok []
    getDatabaseInfo := fun _ => .ok (some wInfo)
    initVectorStore := true
    searchTables := fun _ _ => .error "chroma down"
    executeSql := fun _ _ _ => .error "unused" }

/-- Environment whose registry lists `[{id:"a"},{id:"b"}]`. -/
def envDefaultDb : Env :=
  { getLLM := .ok wGenFresh
    listDatabases := .ok [dbA, dbB]
    getDatabaseInfo := fun _ => .ok (some wInfo)
    initVectorStore := false
    searchTables := fun _ _ => .ok []
    executeSql := fun _ _ _ => .error "unused" }

/-- Environment with a successfully initializing vector store and a
listing whose first entry has an empty-string id. -/
def envVsInit : Env :=
  { getLLM := .ok wGenFresh
    listDatabases := .ok [dbEmptyId]
    getDatabaseInfo := fun _ => .ok (some wInfo)
    initVectorStore := true
    searchTables := fun _ _ => .ok []
    executeSql := fun _ _ _ => .error "unused" }

/-- `envVsInit` with the listing replaced by `[{id:"b"}]`. -/
def envListB : Env := { envVsInit with listDatabases := .ok [dbB] }

/-! ## Character-level model of `app/llm/providers.py`

Python strings are modelled as `List Char`.  The Python string methods
used by `_extract_clean_sql` and the response parsing are reimplemented
below with their Python semantics (ASCII fragment: `str.strip`'s default
whitespace set, `str.upper` character-wise, `str.splitlines` on
`\r\n` / `\r` / `\n`). -/

/-- Character lists standing for Python strings. -/
abbrev Chars := List Char

/-- The default whitespace set of `str.strip` (ASCII fragment):
space, tab, newline, carriage return, vertical tab, form feed. -/
def isSpaceChar (c : Char) : Bool :=
  c == ' ' || c == '\t' || c == '\n' || c == '\r' ||
  c == Char.ofNat 11 || c == Char.ofNat 12

/-- Python's substring containment test `pat in s`. -/
def containsSub (pat : Chars) : Chars → Bool
  | [] => pat.isEmpty
  | c :: rest => pat.isPrefixOf (c :: rest) || containsSub pat rest

/-- Index of the first occurrence of `pat` in `s` (Python `s.find(pat)`,
with `none` in place of -1). -/
def findSub (pat : Chars) : Chars → Option Nat
  | [] => if pat.isEmpty then some 0 else none
  | c :: rest =>
    if pat.isPrefixOf (c :: rest) then some 0
    else (findSub pat rest).map (· + 1)

/-- Python `s.lstrip()`. -/
def pyLstrip (s : Chars) : Chars := s.dropWhile isSpaceChar

/-- Python `s.rstrip()`. -/
def pyRstrip (s : Chars) : Chars := (s.reverse.dropWhile isSpaceChar).reverse

/-- Python `s.strip()`. -/
def pyStrip (s : Chars) : Chars := pyRstrip (pyLstrip s)

/-- Python `s.upper()` (character-wise; ASCII fragment). -/
def pyUpper (s : Chars) : Chars := s.map Char.toUpper

/-- Worker for `pySplitlines`: `cur` is the reversed current line. -/
def pySplitlinesGo (cur : Chars) : Chars → List Chars
  | [] => [cur.reverse]
  | '\r' :: '\n' :: rest =>
      cur.reverse :: (if rest.isEmpty then [] else pySplitlinesGo [] rest)
  | '\n' :: rest =>
      cur.reverse :: (if rest.isEmpty then [] else pySplitlinesGo [] rest)
  | '\r' :: rest =>
      cur.reverse :: (if rest.isEmpty then [] else pySplitlinesGo [] rest)
  | c :: rest => pySplitlinesGo (c :: cur) rest

/-- Python `s.splitlines()` (ASCII line boundaries `\r\n`, `\r`, `\n`;
no trailing empty line for a trailing newline, and `[]` on `""`). -/
def pySplitlines (s : Chars) : List Chars :=
  if s.isEmpty then [] else pySplitlinesGo [] s

/-- Worker for `pySplit`: `cur` is the reversed current chunk. -/
def pySplitGo (sep : Chars) (cur : Chars) : Chars → List Chars
  | [] => [cur.reverse]
  | c :: rest =>
    if h : ¬ sep.isEmpty ∧ sep.isPrefixOf (c :: rest) then
      cur.reverse :: pySplitGo sep [] ((c :: rest).drop sep.length)
    else pySplitGo sep (c :: cur) rest
termination_by l => l.length
decreasing_by
  all_goals simp only [List.length_drop, List.length_cons]
  · have hne : sep ≠ [] := by
      intro hcon
      exact h.1 (by simp [hcon])
    have hpos : 0 < sep.length := List.length_pos.mpr hne
    omega
  · omega

/-- Python `s.split(sep)` for a non-empty separator: non-overlapping,
leftmost-first. -/
def pySplit (sep s : Chars) : List Chars := pySplitGo sep [] s

/-- Python `s.replace(old, new)` for a non-empty `old`. -/
def pyReplace (old new : Chars) : Chars → Chars
  | [] => []
  | c :: rest =>
    if h : ¬ old.isEmpty ∧ old.isPrefixOf (c :: rest) then
      new ++ pyReplace old new ((c :: rest).drop old.length)
    else c :: pyReplace old new rest
termination_by l => l.length
decreasing_by
  all_goals simp only [List.length_drop, List.length_cons]
  · have hne : old ≠ [] := by
      intro hcon
      exact h.1 (by simp [hcon])
    have hpos : 0 < old.length := List.length_pos.mpr hne
    omega
  · omega

/-- The markdown fence marker. -/
def fence : Chars := "```".toList

/-- The sql-tagged markdown fence opener. -/
def fenceSql : Chars := "```sql".toList

/-- The `"--"` line-comment marker. -/
def commentDashes : Chars := "--".toList

/-- The `"#"` line-comment marker. -/
def commentHash : Chars := "#".toList

/-- `line.strip().startswith("--") or line.strip().startswith("#")`
(`providers.py` line 74). -/
def lineIsComment (line : Chars) : Bool :=
  commentDashes.isPrefixOf (pyStrip line) || commentHash.isPrefixOf (pyStrip line)

/-- `line.strip().endswith(";")` (`providers.py` line 82). -/
def stripEndsSemi (line : Chars) : Bool :=
  [';'].isSuffixOf (pyStrip line)

/-- The line-filtering loop of `_extract_clean_sql` (lines 70-83):
skip comment lines, keep lines with non-empty strip, stop after a line
whose strip ends in a semicolon. -/
def buildClean : List Chars → List Chars
  | [] => []
  | line :: rest =>
    if lineIsComment line then buildClean rest
    else
      (if (pyStrip line).isEmpty then [] else [line])
        ++ (if stripEndsSemi line then [] else buildClean rest)

/-- `"\n".join(lines)`. -/
def joinNL : List Chars → Chars
  | [] => []
  | [l] => l
  | l :: ls => l ++ '\n' :: joinNL ls

/-- The markdown-fence extraction of `_extract_clean_sql` (lines 55-67).

The Python code uses `re.findall` with the patterns
 three-backticks + `sql` + `\s*([\s\S]*?)\s*` + three-backticks  (resp. the
untagged variant) and keeps `matches[0]`.  Because the inner group is
lazy and the outer `\s*` are greedy, the first regex match captures
exactly the text between the first fence opener and the next fence
marker after it, stripped of surrounding whitespace; if no fence marker
follows the first opener, no later opener can be matched either (a later
opener itself contains a closing fence marker), so `findall` is empty
and the text is left unchanged. -/
def extractFenced (sql_text : Chars) : Chars :=
  if containsSub fenceSql sql_text then
    match findSub fenceSql sql_text with
    | some i =>
      let rest := sql_text.drop (i + fenceSql.length)
      match findSub fence rest with
      | some j => pyStrip (rest.take j)
      | none => sql_text
    | none => sql_text
  else if containsSub fence sql_text then
    match findSub fence sql_text with
    | some i =>
      let rest := sql_text.drop (i + fence.length)
      match findSub fence rest with
      | some j => pyStrip (rest.take j)
      | none => sql_text
    | none => sql_text
  else sql_text

/-- The post-extraction part of `_extract_clean_sql` (lines 70-92):
line filtering, join, and truncation at the first semicolon
(`sql.split(";")[0] + ";"`). -/
def processLines (sql_text : Chars) : Chars :=
  let clean_lines := buildClean (pySplitlines sql_text)
  let sql := joinNL clean_lines
  if containsSub [';'] sql then sql.takeWhile (fun c => c != ';') ++ [';'] else sql

/-- `LLMProvider._extract_clean_sql` (`app/llm/providers.py` lines 51-92). -/
def pyExtractCleanSql (sql_text : Chars) : Chars :=
  processLines (extractFenced sql_text)

/-- The `"Reasoning:"` marker. -/
def reasoningMarker : Chars := "Reasoning:".toList

/-- The `"SQL:"` marker. -/
def sqlMarker : Chars := "SQL:".toList

/-- The `"SELECT"` keyword. -/
def selectPat : Chars := "SELECT".toList

/-- The response-parsing logic shared verbatim by
`AnthropicProvider.generate_sql` (lines 360-386), the LangChain fallback
of `OpenAIProvider.generate_sql` (lines 205-231) and
`LocalProvider.generate_sql` (lines 517-543): returns
`(reasoning, sql)`. -/
def parseResponse (response_text : Chars) : Chars × Chars :=
  if containsSub reasoningMarker response_text && containsSub sqlMarker response_text then
    let parts := pySplit sqlMarker response_text
    let reasoning := pyStrip (pyReplace reasoningMarker [] (parts.getD 0 []))
    let sql := pyExtractCleanSql (pyStrip (parts.getD 1 []))
    (reasoning, sql)
  else if containsSub selectPat (pyUpper response_text) then
    match findSub selectPat (pyUpper response_text) with
    | some sql_start_index =>
      (pyStrip (response_text.take sql_start_index),
       pyExtractCleanSql (response_text.drop sql_start_index))
    | none => (response_text, [])
  else (response_text, [])

/-- `AnthropicProvider.generate_sql` (lines 270-386): the backend call
`self.client.ainvoke(...)` is unguarded, so a backend failure
propagates; on a returned response text the parsing runs (and itself
never fails). -/
def anthropicGenerateSql (backend : Except String Chars) :
    Except String (Chars × Chars) :=
  match backend with
  | .error e => .error e
  | .ok response_text => .ok (parseResponse response_text)

/-- `OpenAIProvider.generate_sql` (lines 117-231): the instructor call is
tried first; on its failure the LangChain backend is called (unguarded)
and its response parsed. -/
def openaiGenerateSql (instructorResult : Except String (Chars × Chars))
    (langchainResult : Except String Chars) : Except String (Chars × Chars) :=
  match instructorResult with
  | .ok out => .ok out
  | .error _ =>
    match langchainResult with
    | .error e => .error e
    | .ok response_text => .ok (parseResponse response_text)

/-! ## Helper lemmas -/

theorem string_append_assoc (a b c : String) : a ++ b ++ c = a ++ (b ++ c) := by
  cases a
  cases b
  cases c
  apply congrArg String.mk
  apply List.append_assoc

theorem reasoning_tag (r1 r2 : String) :
    r1 ++ "\n\nRetry attempt " ++ toString (2 : Nat) ++ ":\n" ++ r2 =
    r1 ++ "\n\nRetry attempt 2:\n" ++ r2 := by
  rw [string_append_assoc r1 "\n\nRetry attempt " (toString (2 : Nat)),
      string_append_assoc r1 ("\n\nRetry attempt " ++ toString (2 : Nat)) ":\n",
      show ("\n\nRetry attempt " ++ toString (2 : Nat)) ++ ":\n"
          = "\n\nRetry attempt 2:\n" from by decide]

theorem retrieveTables_database_id (env : Env) (st : ProcState) (q dbid : String)
    (info : DatabaseInfo) :
    (retrieveTables env st q dbid info).2.database_id = st.database_id := by
  unfold retrieveTables initVectorStoreStep
  repeat' split
  all_goals simp

theorem retrieveTables_llm_provider (env : Env) (st : ProcState) (q dbid : String)
    (info : DatabaseInfo) :
    (retrieveTables env st q dbid info).2.llm_provider = st.llm_provider := by
  unfold retrieveTables initVectorStoreStep
  repeat' split
  all_goals simp

theorem retrieveTables_of_no_store (env : Env) (st : ProcState) (q dbid : String)
    (info : DatabaseInfo) (hvs : st.vector_store = false)
    (hinit : env.initVectorStore = false) :
    retrieveTables env st q dbid info = (info.tables, st) := by
  simp [retrieveTables, initVectorStoreStep, hvs, hinit]

theorem retrieveTables_fst_of_search_error (env : Env) (st : ProcState)
    (q dbid e : String) (info : DatabaseInfo)
    (hs : env.searchTables q dbid = .error e) :
    (retrieveTables env st q dbid info).1 = info.tables := by
  unfold retrieveTables
  repeat' split
  all_goals simp_all

theorem retrieveTables_fst_of_search_nil (env : Env) (st : ProcState)
    (q dbid : String) (info : DatabaseInfo)
    (hs : env.searchTables q dbid = .ok []) :
    (retrieveTables env st q dbid info).1 = info.tables := by
  unfold retrieveTables
  repeat' split
  all_goals simp_all

theorem retrieveTables_snd_of_store (env : Env) (st : ProcState) (q dbid : String)
    (info : DatabaseInfo) (hvs : st.vector_store = true) :
    (retrieveTables env st q dbid info).2 = st := by
  unfold retrieveTables initVectorStoreStep
  repeat' split
  all_goals simp_all

theorem processCeil_llm_provider (c : Nat) (env : Env) (st : ProcState)
    (q : String) (b : Bool) :
    (processCeil c env st q b).2.llm_provider = st.llm_provider := by
  unfold processCeil
  repeat' split
  all_goals (try subst_vars)
  all_goals try simp_all [retrieveTables_llm_provider, failResp]
  all_goals repeat' split
  all_goals (try subst_vars)
  all_goals try simp_all [retrieveTables_llm_provider, failResp]

theorem processCeil_vector_store_kept (c : Nat) (env : Env) (st : ProcState)
    (q : String) (b : Bool) (h : st.vector_store = true) :
    (processCeil c env st q b).2.vector_store = true := by
  unfold processCeil
  repeat' split
  all_goals (try subst_vars)
  all_goals try simp_all [retrieveTables_snd_of_store, failResp]
  all_goals repeat' split
  all_goals (try subst_vars)
  all_goals try simp_all [retrieveTables_snd_of_store, failResp]

theorem processCeil_dbid_kept (c : Nat) (env : Env) (st : ProcState)
    (q i : String) (b : Bool) (hid : st.database_id = some i) (hne : i ≠ "") :
    (processCeil c env st q b).1.database_id = some i ∧
    (processCeil c env st q b).2.database_id = some i := by
  have hbe : (i == "") = false := beq_eq_false_iff_ne.mpr hne
  unfold processCeil
  repeat' split
  all_goals (try subst_vars)
  all_goals try simp_all [retrieveTables_database_id, failResp, pyFalsyStrOpt]
  all_goals repeat' split
  all_goals (try subst_vars)
  all_goals try simp_all [retrieveTables_database_id, failResp, pyFalsyStrOpt]

theorem processCeil_dbid_resolved (c : Nat) (env : Env) (st : ProcState)
    (q : String) (b : Bool) (g : LLMFn) (d : DBListing) (ds : List DBListing)
    (hid : st.database_id = none) (hllm : env.getLLM = .ok g)
    (hlist : env.listDatabases = .ok (d :: ds)) :
    (processCeil c env st q b).1.database_id = some d.id ∧
    (processCeil c env st q b).2.database_id = some d.id := by
  unfold processCeil
  simp only [hllm, hid, hlist, pyFalsyStrOpt]
  repeat' split
  all_goals (try subst_vars)
  all_goals try simp_all [retrieveTables_database_id, failResp]
  all_goals repeat' split
  all_goals (try subst_vars)
  all_goals try simp_all [retrieveTables_database_id, failResp]

theorem processCeil_retrieved (c : Nat) (env : Env) (st st2 : ProcState)
    (q i : String) (b : Bool) (g : LLMFn) (info : DatabaseInfo)
    (tables : List TableSchema)
    (hllm : env.getLLM = .ok g)
    (hid : st.database_id = some i) (hne : i ≠ "")
    (hinfo : env.getDatabaseInfo i = .ok (some info))
    (hretr : retrieveTables env st q i info = (tables, st2)) :
    (processCeil c env st q b).1.trace.retrieved_schemas = tables := by
  have hbe : (i == "") = false := beq_eq_false_iff_ne.mpr hne
  unfold processCeil
  simp only [hllm, hid, pyFalsyStrOpt, hbe, Bool.false_eq_true, if_false,
    Option.getD_some, hinfo, hretr]
  repeat' split
  all_goals (try subst_vars)
  all_goals try simp_all [failResp]
  all_goals repeat' split
  all_goals (try subst_vars)
  all_goals try simp_all [failResp]

theorem processCeil_no_listing_read (c : Nat) (env : Env) (st : ProcState)
    (q i : String) (b : Bool)
    (L : Except String (List DBListing))
    (hid : st.database_id = some i) (hne : i ≠ "") :
    processCeil c { env with listDatabases := L } st q b = processCeil c env st q b := by
  have hbe : (i == "") = false := beq_eq_false_iff_ne.mpr hne
  simp [processCeil, hid, pyFalsyStrOpt, hbe, retrieveTables, initVectorStoreStep]

/-! ## Claim theorems -/

/-- Claim C2: with `should_execute_sql = false`, when database resolution,
schema retrieval and generation do not raise, the response has
`result = none`, `success = true`, `error = none`, `trace.attempts = 1`,
empty `trace.errors`, and `sql` equal to the freshly generated text —
including when that text is empty (the generated SQL `s` is universally
quantified, so `s = ""` is covered). -/
theorem skip_execution_invariant (env : Env) (st : ProcState) (q i : String)
    (g : LLMFn) (info : DatabaseInfo) (r s : String)
    (hllm : env.getLLM = .ok g)
    (hid : st.database_id = some i) (hne : i ≠ "")
    (hinfo : env.getDatabaseInfo i = .ok (some info))
    (hgen : ∀ tables, g { query := q, tables := tables } = .ok (r, s)) :
    (process env st q false).1.result = none ∧
    (process env st q false).1.success = true ∧
    (process env st q false).1.error = none ∧
    (process env st q false).1.trace.attempts = 1 ∧
    (process env st q false).1.trace.errors = [] ∧
    (process env st q false).1.sql = s := by
  have hbe : (i == "") = false := beq_eq_false_iff_ne.mpr hne
  rcases hretr : retrieveTables env st q i info with ⟨tables, st2⟩
  simp [process, processCeil, hllm, hid, hbe, pyFalsyStrOpt, hinfo, hretr, hgen]

/-- Claim C3: with execution requested, an executor that fails on the
first call and succeeds on the second (corrective) call yields
`success = true`, `error = none`, `trace.attempts = 2`, `trace.errors`
containing exactly the first failure, the new execution outcome attached
as `result`, and the corrective reasoning appended to the accumulated
reasoning tagged with attempt number 2. -/
theorem single_retry_success (env : Env) (st : ProcState) (q i : String)
    (g : LLMFn) (info : DatabaseInfo) (r1 s1 r2 s2 e1 : String) (rd : ResultData)
    (hllm : env.getLLM = .ok g)
    (hid : st.database_id = some i) (hne : i ≠ "")
    (hinfo : env.getDatabaseInfo i = .ok (some info))
    (hgen1 : ∀ tables, g { query := q, tables := tables } = .ok (r1, s1))
    (hexec0 : ∀ sql d, env.executeSql 0 sql d = .error e1)
    (hgen2 : ∀ tables,
      g { query := q, tables := tables, error := some e1, previous_sql := some s1 }
        = .ok (r2, s2))
    (hexec1 : ∀ sql d, env.executeSql 1 sql d = .ok (some rd)) :
    (process env st q true).1.success = true ∧
    (process env st q true).1.error = none ∧
    (process env st q true).1.trace.attempts = 2 ∧
    (process env st q true).1.trace.errors = [e1] ∧
    (process env st q true).1.result = some (mkResult rd) ∧
    (process env st q true).1.trace.reasoning = r1 ++ "\n\nRetry attempt 2:\n" ++ r2 := by
  have hbe : (i == "") = false := beq_eq_false_iff_ne.mpr hne
  rcases hretr : retrieveTables env st q i info with ⟨tables, st2⟩
  simp [process, processCeil, hllm, hid, hbe, pyFalsyStrOpt, hinfo, hretr, hgen1,
    hexec0, hgen2, hexec1, ← reasoning_tag]

/-- Claim C4: with execution requested and an executor that fails on
every call, exactly one corrective round happens: `success = false`,
`trace.attempts = 2`, `trace.errors = [first failure, retry failure]` in
order, and the top-level error is the retry failure.  The last two
conjuncts capture "never more, regardless of the ceiling value 3": with
the `attempts < 3` comparison generalized to any ceiling `c`, every
`c ≥ 2` produces the same response as the source's ceiling 3, and for
every `c` at most two errors are ever recorded. -/
theorem exhausted_retry_bound (env : Env) (st : ProcState) (q i : String)
    (g : LLMFn) (info : DatabaseInfo) (r1 s1 r2 s2 e1 e2 : String)
    (hllm : env.getLLM = .ok g)
    (hid : st.database_id = some i) (hne : i ≠ "")
    (hinfo : env.getDatabaseInfo i = .ok (some info))
    (hgen1 : ∀ tables, g { query := q, tables := tables } = .ok (r1, s1))
    (hexec0 : ∀ sql d, env.executeSql 0 sql d = .error e1)
    (hgen2 : ∀ tables,
      g { query := q, tables := tables, error := some e1, previous_sql := some s1 }
        = .ok (r2, s2))
    (hexec1 : ∀ sql d, env.executeSql 1 sql d = .error e2) :
    (process env st q true).1.success = false ∧
    (process env st q true).1.trace.attempts = 2 ∧
    (process env st q true).1.trace.errors = [e1, e2] ∧
    (process env st q true).1.error = some e2 ∧
    (∀ c, 2 ≤ c → processCeil c env st q true = process env st q true) ∧
    (∀ c, ((processCeil c env st q true).1.trace.errors).length ≤ 2) := by
  have hbe : (i == "") = false := beq_eq_false_iff_ne.mpr hne
  rcases hretr : retrieveTables env st q i info with ⟨tables, st2⟩
  refine ⟨?_, ?_, ?_, ?_, ?_, ?_⟩
  · simp [process, processCeil, hllm, hid, hbe, pyFalsyStrOpt, hinfo, hretr, hgen1,
      hexec0, hgen2, hexec1]
  · simp [process, processCeil, hllm, hid, hbe, pyFalsyStrOpt, hinfo, hretr, hgen1,
      hexec0, hgen2, hexec1]
  · simp [process, processCeil, hllm, hid, hbe, pyFalsyStrOpt, hinfo, hretr, hgen1,
      hexec0, hgen2, hexec1]
  · simp [process, processCeil, hllm, hid, hbe, pyFalsyStrOpt, hinfo, hretr, hgen1,
      hexec0, hgen2, hexec1]
  · intro c hc
    have hlt : 1 < c := by omega
    simp [process, processCeil, hllm, hid, hbe, pyFalsyStrOpt, hinfo, hretr, hgen1,
      hexec0, hgen2, hexec1, hlt]
  · intro c
    by_cases hlt : 1 < c
    · simp [processCeil, hllm, hid, hbe, pyFalsyStrOpt, hinfo, hretr, hgen1,
        hexec0, hgen2, hexec1, hlt]
    · simp [processCeil, hllm, hid, hbe, pyFalsyStrOpt, hinfo, hretr, hgen1,
        hexec0, hgen2, hexec1, hlt]

/-- Claim C9: when the fresh execution fails and the corrective
execution also fails, the response's `sql` keeps the original generated
SQL while `trace.generated_sql` holds the corrective SQL, so the two
differ whenever the corrective generator returned different text. -/
theorem retry_failure_sql_fields (env : Env) (st : ProcState) (q i : String)
    (g : LLMFn) (info : DatabaseInfo) (r1 s1 r2 s2 e1 e2 : String)
    (hllm : env.getLLM = .ok g)
    (hid : st.database_id = some i) (hne : i ≠ "")
    (hinfo : env.getDatabaseInfo i = .ok (some info))
    (hgen1 : ∀ tables, g { query := q, tables := tables } = .ok (r1, s1))
    (hexec0 : ∀ sql d, env.executeSql 0 sql d = .error e1)
    (hgen2 : ∀ tables,
      g { query := q, tables := tables, error := some e1, previous_sql := some s1 }
        = .ok (r2, s2))
    (hexec1 : ∀ sql d, env.executeSql 1 sql d = .error e2) :
    (process env st q true).1.sql = s1 ∧
    (process env st q true).1.trace.generated_sql = s2 ∧
    (s1 ≠ s2 →
      (process env st q true).1.sql ≠ (process env st q true).1.trace.generated_sql) := by
  have hbe : (i == "") = false := beq_eq_false_iff_ne.mpr hne
  rcases hretr : retrieveTables env st q i info with ⟨tables, st2⟩
  refine ⟨?_, ?_, ?_⟩
  · simp [process, processCeil, hllm, hid, hbe, pyFalsyStrOpt, hinfo, hretr, hgen1,
      hexec0, hgen2, hexec1]
  · simp [process, processCeil, hllm, hid, hbe, pyFalsyStrOpt, hinfo, hretr, hgen1,
      hexec0, hgen2, hexec1]
  · intro hdiff
    simp [process, processCeil, hllm, hid, hbe, pyFalsyStrOpt, hinfo, hretr, hgen1,
      hexec0, hgen2, hexec1, hdiff]

/-- Claim C5: when the vector-store lookup raises, is unavailable (the
store fails to initialize), or returns an empty list, the candidate
tables stored in `trace.retrieved_schemas` equal the full table list of
the resolved database descriptor, no retrieval failure propagates (the
pipeline continues past retrieval for every later behaviour, since the
conclusion holds for all of them), `trace.retrieved_schemas` is empty
only if the descriptor has zero tables, and the generator is invoked on
that full table list (its output becomes the response's `sql`). -/
theorem retrieval_fallback (env : Env) (st : ProcState) (q i e : String) (b : Bool)
    (g : LLMFn) (info : DatabaseInfo)
    (hllm : env.getLLM = .ok g)
    (hid : st.database_id = some i) (hne : i ≠ "")
    (hinfo : env.getDatabaseInfo i = .ok (some info)) :
    (st.vector_store = false → env.initVectorStore = false →
      (process env st q b).1.trace.retrieved_schemas = info.tables) ∧
    (env.searchTables q i = .error e →
      (process env st q b).1.trace.retrieved_schemas = info.tables) ∧
    (env.searchTables q i = .ok [] →
      (process env st q b).1.trace.retrieved_schemas = info.tables) ∧
    (env.searchTables q i = .error e →
      (process env st q b).1.trace.retrieved_schemas = [] → info.tables = []) ∧
    (∀ r s, env.searchTables q i = .error e →
      g { query := q, tables := info.tables } = .ok (r, s) →
      (process env st q false).1.sql = s) := by
  have hbe : (i == "") = false := beq_eq_false_iff_ne.mpr hne
  have key : ∀ b2 st2, retrieveTables env st q i info = (info.tables, st2) →
      (process env st q b2).1.trace.retrieved_schemas = info.tables := by
    intro b2 st2 hr
    exact processCeil_retrieved 3 env st st2 q i b2 g info info.tables
      hllm hid hne hinfo hr
  have hjoin : ∀ tbs, (retrieveTables env st q i info).1 = tbs →
      retrieveTables env st q i info = (tbs, (retrieveTables env st q i info).2) := by
    intro tbs h1
    rw [← h1]
  have kerr : env.searchTables q i = .error e →
      (process env st q b).1.trace.retrieved_schemas = info.tables := by
    intro hs
    exact key b _ (hjoin _ (retrieveTables_fst_of_search_error env st q i e info hs))
  refine ⟨?_, kerr, ?_, ?_, ?_⟩
  · intro hvs hinit
    exact key b st (retrieveTables_of_no_store env st q i info hvs hinit)
  · intro hs
    exact key b _ (hjoin _ (retrieveTables_fst_of_search_nil env st q i info hs))
  · intro hs hempty
    have := kerr hs
    rw [hempty] at this
    exact this.symm
  · intro r s hs hgen
    rcases hretr : retrieveTables env st q i info with ⟨tables, st2⟩
    have htb : tables = info.tables := by
      have h1 := retrieveTables_fst_of_search_error env st q i e info hs
      rw [hretr] at h1
      exact h1
    subst htb
    simp [process, processCeil, hllm, hid, hbe, pyFalsyStrOpt, hinfo, hretr, hgen]

/-- Claim C6: with no database identifier on the processor, a non-empty
listing makes the response report the first entry's id (in listing
order), while an empty listing terminates with the failure response
`"No database connections available"` and an empty trace, without
consulting the database-info, retrieval, generation or execution
collaborators (the response is unchanged when all of them are swapped
for arbitrary ones). -/
theorem default_database_selection (env : Env) (st : ProcState) (q : String)
    (b : Bool) (g : LLMFn)
    (hid : st.database_id = none)
    (hllm : env.getLLM = .ok g) :
    (∀ d ds, env.listDatabases = .ok (d :: ds) →
      (process env st q b).1.database_id = some d.id) ∧
    (env.listDatabases = .ok [] →
      process env st q b = (failResp q st {} "No database connections available", st) ∧
      ∀ (g2 : LLMFn) (gi : String → Except String (Option DatabaseInfo))
        (iv : Bool) (sv : String → String → Except String (List TableSchema))
        (ex : Nat → String → String → Except String (Option ResultData)),
        process { env with
            getLLM := .ok g2
            getDatabaseInfo := gi
            initVectorStore := iv
            searchTables := sv
            executeSql := ex } st q b
          = process env st q b) := by
  constructor
  · intro d ds hlist
    exact (processCeil_dbid_resolved 3 env st q b g d ds hid hllm hlist).1
  · intro hlist
    constructor
    · simp [process, processCeil, hllm, hid, hlist, pyFalsyStrOpt]
    · intro g2 gi iv sv ex
      simp [process, processCeil, hllm, hid, hlist, pyFalsyStrOpt]

/-- Claim C10 (amended): when `process` resolves the default database,
the resolved id is written into the processor's `database_id` field and
persists after the call; a second call whose stored id is a *non-empty*
string reuses it without re-reading the database listing (an
empty-string id is falsy in Python and triggers re-resolution); and
besides `database_id` the only other processor field `process` may
modify is `vector_store`, set when the vector store first initializes
(`llm_provider` is never modified, and an already-set `vector_store`
stays set). -/
theorem process_state_frame (env : Env) (st : ProcState) (q : String) (b : Bool) :
    (∀ g d ds, st.database_id = none → env.getLLM = .ok g →
      env.listDatabases = .ok (d :: ds) →
      (process env st q b).2.database_id = some d.id) ∧
    (∀ i, st.database_id = some i → i ≠ "" →
      (process env st q b).2.database_id = some i ∧
      ∀ L, process { env with listDatabases := L } st q b = process env st q b) ∧
    (process env st q b).2.llm_provider = st.llm_provider ∧
    (st.vector_store = true → (process env st q b).2.vector_store = true) :=
  ⟨fun g d ds hid hllm hlist =>
      (processCeil_dbid_resolved 3 env st q b g d ds hid hllm hlist).2,
   fun i hid hne =>
      ⟨(processCeil_dbid_kept 3 env st q i b hid hne).2,
       fun L => processCeil_no_listing_read 3 env st q i b L hid hne⟩,
   processCeil_llm_provider 3 env st q b,
   processCeil_vector_store_kept 3 env st q b⟩

/-- Claim C10 counterexample: at a concrete run, `process` modifies the
`vector_store` field (from `false` to `true`), contradicting "no other
processor field is modified"; and when the resolved id is the empty
string, a second call re-reads the listing (resolving `"b"`) instead of
reusing the stored id, contradicting the unconditional reuse claim. -/
theorem process_state_frame_counterexample :
    stNone.vector_store = false ∧
    (process envVsInit stNone "q" false).2.vector_store = true ∧
    (process envVsInit stNone "q" false).2.database_id = some "" ∧
    (process envListB (process envVsInit stNone "q" false).2 "q" false).1.database_id
      = some "b" := by
  decide

/-- Claim C1: `process` is total by construction — it is a Lean function
producing exactly one `QueryResponse` for every input and every
collaborator behaviour — and every collaborator failure that is not
locally absorbed (LLM lookup, database listing, empty listing,
database-info lookup, fresh generation, corrective generation) is caught
at the outer boundary, yielding the failure response with `sql = ""`,
`result = none`, `success = false`, the failure's message as the
top-level error, and the partial trace accumulated before the failure.
(Executor failures are absorbed by the inner retry handler and
retrieval failures by the fallback; see C3-C5.) -/
theorem outer_boundary (env : Env) (st : ProcState) (q : String) (b : Bool) :
    (∀ e, env.getLLM = .error e →
      process env st q b = (failResp q st {} e, st)) ∧
    (∀ g e, env.getLLM = .ok g → st.database_id = none →
      env.listDatabases = .error e →
      process env st q b = (failResp q st {} e, st)) ∧
    (∀ g, env.getLLM = .ok g → st.database_id = none →
      env.listDatabases = .ok [] →
      process env st q b = (failResp q st {} "No database connections available", st)) ∧
    (∀ g i e, env.getLLM = .ok g → st.database_id = some i → i ≠ "" →
      env.getDatabaseInfo i = .error e →
      process env st q b = (failResp q st {} e, st)) ∧
    (∀ g i, env.getLLM = .ok g → st.database_id = some i → i ≠ "" →
      env.getDatabaseInfo i = .ok none →
      process env st q b
        = (failResp q st {} ("Database with ID " ++ i ++ " not found"), st)) ∧
    (∀ g i info e, env.getLLM = .ok g → st.database_id = some i → i ≠ "" →
      env.getDatabaseInfo i = .ok (some info) →
      st.vector_store = false → env.initVectorStore = false →
      (∀ args, g args = .error e) →
      process env st q b
        = (failResp q st { retrieved_schemas := info.tables } e, st)) ∧
    (∀ g i info r1 s1 e1 ge, env.getLLM = .ok g → st.database_id = some i → i ≠ "" →
      env.getDatabaseInfo i = .ok (some info) →
      st.vector_store = false → env.initVectorStore = false →
      (∀ tables, g { query := q, tables := tables } = .ok (r1, s1)) →
      (∀ sql d, env.executeSql 0 sql d = .error e1) →
      (∀ tables, g { query := q, tables := tables, error := some e1,
                     previous_sql := some s1 } = .error ge) →
      b = true →
      process env st q b
        = (failResp q st { reasoning := r1
                           retrieved_schemas := info.tables
                           generated_sql := s1
                           errors := [e1]
                           attempts := 2 } ge, st)) := by
  refine ⟨?_, ?_, ?_, ?_, ?_, ?_, ?_⟩
  · intro e hllm
    simp [process, processCeil, hllm, failResp]
  · intro g e hllm hid hlist
    simp [process, processCeil, hllm, hid, hlist, pyFalsyStrOpt, failResp]
  · intro g hllm hid hlist
    simp [process, processCeil, hllm, hid, hlist, pyFalsyStrOpt, failResp]
  · intro g i e hllm hid hne hinfo
    have hbe : (i == "") = false := beq_eq_false_iff_ne.mpr hne
    simp [process, processCeil, hllm, hid, hbe, pyFalsyStrOpt, hinfo, failResp]
  · intro g i hllm hid hne hinfo
    have hbe : (i == "") = false := beq_eq_false_iff_ne.mpr hne
    simp [process, processCeil, hllm, hid, hbe, pyFalsyStrOpt, hinfo, failResp]
  · intro g i info e hllm hid hne hinfo hvs hinit hgen
    have hbe : (i == "") = false := beq_eq_false_iff_ne.mpr hne
    have hretr := retrieveTables_of_no_store env st q i info hvs hinit
    simp [process, processCeil, hllm, hid, hbe, pyFalsyStrOpt, hinfo, hretr, hgen,
      failResp]
  · intro g i info r1 s1 e1 ge hllm hid hne hinfo hvs hinit hgen1 hexec0 hgen2 hb
    subst hb
    have hbe : (i == "") = false := beq_eq_false_iff_ne.mpr hne
    have hretr := retrieveTables_of_no_store env st q i info hvs hinit
    simp [process, processCeil, hllm, hid, hbe, pyFalsyStrOpt, hinfo, hretr, hgen1,
      hexec0, hgen2, failResp]

/-- Witness for C1 at a concrete environment whose LLM lookup raises. -/
theorem outer_boundary_witness :
    process envLlmDown stSome "q" true = (failResp "q" stSome {} "no llm", stSome) :=
  (outer_boundary envLlmDown stSome "q" true).1 "no llm" rfl

/-- Witness for C2 at a concrete environment whose generator returns the
empty SQL string. -/
theorem skip_execution_invariant_witness :
    (process envSkip stSome "list users" false).1.result = none ∧
    (process envSkip stSome "list users" false).1.success = true ∧
    (process envSkip stSome "list users" false).1.error = none ∧
    (process envSkip stSome "list users" false).1.trace.attempts = 1 ∧
    (process envSkip stSome "list users" false).1.trace.errors = [] ∧
    (process envSkip stSome "list users" false).1.sql = "" :=
  skip_execution_invariant envSkip stSome "list users" "a" wGenEmptySql wInfo
    "mock query" "" rfl rfl (by decide) rfl (fun _ => rfl)

/-- Witness for C3 at a concrete fail-then-succeed executor stub. -/
theorem single_retry_success_witness :
    (process envRetryOk stSome "q" true).1.success = true ∧
    (process envRetryOk stSome "q" true).1.error = none ∧
    (process envRetryOk stSome "q" true).1.trace.attempts = 2 ∧
    (process envRetryOk stSome "q" true).1.trace.errors = ["err one"] ∧
    (process envRetryOk stSome "q" true).1.result = some (mkResult wRD) ∧
    (process envRetryOk stSome "q" true).1.trace.reasoning
      = "r1" ++ "\n\nRetry attempt 2:\n" ++ "r2" :=
  single_retry_success envRetryOk stSome "q" "a" wGenRetry wInfo
    "r1" "S1" "r2" "S2" "err one" wRD
    rfl rfl (by decide) rfl (fun _ => rfl) (fun _ _ => rfl) (fun _ => rfl)
    (fun _ _ => rfl)

/-- Witness for C4 at a concrete always-failing executor stub. -/
theorem exhausted_retry_bound_witness :
    (process envRetryFail stSome "q" true).1.success = false ∧
    (process envRetryFail stSome "q" true).1.trace.attempts = 2 ∧
    (process envRetryFail stSome "q" true).1.trace.errors = ["err one", "err two"] ∧
    (process envRetryFail stSome "q" true).1.error = some "err two" := by
  obtain ⟨h1, h2, h3, h4, _, _⟩ :=
    exhausted_retry_bound envRetryFail stSome "q" "a" wGenRetry wInfo
      "r1" "S1" "r2" "S2" "err one" "err two"
      rfl rfl (by decide) rfl (fun _ => rfl) (fun _ _ => rfl) (fun _ => rfl)
      (fun _ _ => rfl)
  exact ⟨h1, h2, h3, h4⟩

/-- Witness for C9 at a concrete always-failing executor stub. -/
theorem retry_failure_sql_fields_witness :
    (process envRetryFail stSome "q2" true).1.sql = "S1" ∧
    (process envRetryFail stSome "q2" true).1.trace.generated_sql = "S2" ∧
    (process envRetryFail stSome "q2" true).1.sql
      ≠ (process envRetryFail stSome "q2" true).1.trace.generated_sql := by
  obtain ⟨h1, h2, h3⟩ :=
    retry_failure_sql_fields envRetryFail stSome "q2" "a" wGenRetry wInfo
      "r1" "S1" "r2" "S2" "err one" "err two"
      rfl rfl (by decide) rfl (fun _ => rfl) (fun _ _ => rfl) (fun _ => rfl)
      (fun _ _ => rfl)
  exact ⟨h1, h2, h3 (by decide)⟩

/-- Witness for C5 at a concrete always-raising vector index stub. -/
theorem retrieval_fallback_witness :
    (process envFallback stSome "q" true).1.trace.retrieved_schemas = wInfo.tables :=
  (retrieval_fallback envFallback stSome "q" "a" "chroma down" true wGenFresh wInfo
    rfl rfl (by decide) rfl).2.1 rfl

/-- Witness for C6 at a registry returning `[{id:"a"},{id:"b"}]`. -/
theorem default_database_selection_witness :
    (process envDefaultDb stNone "q" true).1.database_id = some "a" :=
  (default_database_selection envDefaultDb stNone "q" true wGenFresh rfl rfl).1
    dbA [dbB] rfl

/-- Witness for C10 (amended claim) at a concrete resolving run. -/
theorem process_state_frame_witness :
    (process envDefaultDb stNone "q" false).2.database_id = some "a" ∧
    (process envDefaultDb stNone "q" false).2.llm_provider = "openai" :=
  ⟨(process_state_frame envDefaultDb stNone "q" false).1 wGenFresh dbA [dbB]
      rfl rfl rfl,
   (process_state_frame envDefaultDb stNone "q" false).2.2.1⟩

/-! ## String lemmas for the `_extract_clean_sql` contract -/

theorem containsSub_iff (pat s : Chars) : containsSub pat s = true ↔ pat <:+: s := by
  induction s with
  | nil => simp [containsSub, List.isEmpty_iff]
  | cons c rest ih => simp [containsSub, ih, List.infix_cons_iff]

theorem contains_of_findSub_some (pat : Chars) :
    ∀ (s : Chars) (j : Nat), findSub pat s = some j → containsSub pat s = true := by
  intro s
  induction s with
  | nil =>
    intro j h
    simp only [findSub] at h
    split at h
    · simp_all [containsSub]
    · cases h
  | cons c rest ih =>
    intro j h
    simp only [findSub] at h
    split at h
    · simp_all [containsSub]
    · rcases Option.map_eq_some'.mp h with ⟨j', hj', _⟩
      simp [containsSub, ih j' hj']

theorem findSub_spec (pat : Chars) :
    ∀ (s : Chars) (j : Nat), findSub pat s = some j →
      pat <+: s.drop j ∧ ∀ k, k < j → ¬ pat <+: s.drop k := by
  intro s
  induction s with
  | nil =>
    intro j h
    simp only [findSub] at h
    split at h
    · rcases Option.some.inj h with rfl
      refine ⟨by simp_all [List.isEmpty_iff], by omega⟩
    · cases h
  | cons c rest ih =>
    intro j h
    simp only [findSub] at h
    split at h
    · rcases Option.some.inj h with rfl
      refine ⟨by simp_all, by omega⟩
    · rcases Option.map_eq_some'.mp h with ⟨j', hj', rfl⟩
      obtain ⟨h1, h2⟩ := ih j' hj'
      refine ⟨by simpa using h1, ?_⟩
      intro k hk
      match k with
      | 0 =>
        simp only [List.drop_zero]
        intro hcon
        simp_all [List.isPrefixOf_iff_prefix]
      | k + 1 =>
        simpa using h2 k (by omega)

theorem not_contains_take (pat s : Chars) (j : Nat) (hne : pat ≠ [])
    (h : findSub pat s = some j) : containsSub pat (s.take j) = false := by
  by_contra hcon
  rw [Bool.not_eq_false, containsSub_iff] at hcon
  obtain ⟨u, v, huv⟩ := hcon
  have hs : s = u ++ (pat ++ (v ++ s.drop j)) := by
    conv_lhs => rw [← List.take_append_drop j s]
    rw [← huv]
    simp [List.append_assoc]
  have hpre : pat <+: s.drop u.length := by
    rw [hs, List.drop_left]
    exact List.prefix_append _ _
  have hlen1 : (s.take j).length ≤ j := by
    simp [List.length_take]
  have hlen2 : (s.take j).length = u.length + pat.length + v.length := by
    rw [← huv]
    simp only [List.length_append]
    try omega
  have hpos : 0 < pat.length := List.length_pos.mpr hne
  exact (findSub_spec pat s j h).2 u.length (by omega) hpre

theorem containsSub_mono (pat u s : Chars) (hi : u <:+: s)
    (h : containsSub pat u = true) : containsSub pat s = true := by
  rw [containsSub_iff] at h ⊢
  exact h.trans hi

theorem not_containsSub_mono (pat u s : Chars) (hi : u <:+: s)
    (h : containsSub pat s = false) : containsSub pat u = false := by
  by_contra hcon
  rw [Bool.not_eq_false] at hcon
  rw [containsSub_mono pat u s hi hcon] at h
  cases h

theorem fenceSql_decomp : fenceSql = fence ++ ['s', 'q', 'l'] := by decide

theorem contains_fence_of_fenceSql (s : Chars)
    (h : containsSub fenceSql s = true) : containsSub fence s = true := by
  rw [containsSub_iff] at h ⊢
  obtain ⟨u, v, huv⟩ := h
  refine ⟨u, ['s', 'q', 'l'] ++ v, ?_⟩
  rw [← huv, fenceSql_decomp]
  simp [List.append_assoc]

theorem containsSub_singleton (c : Char) (s : Chars) :
    containsSub [c] s = true ↔ c ∈ s := by
  rw [containsSub_iff]
  constructor
  · intro h
    exact (List.singleton_sublist).mp h.sublist
  · intro h
    obtain ⟨u, v, rfl⟩ := List.append_of_mem h
    exact ⟨u, v, by simp⟩

theorem prefix_append_cons (pat : Chars) :
    ∀ (u : Chars) (v : Chars) (c : Char), c ∉ pat →
      pat <+: u ++ c :: v → pat <+: u := by
  induction pat with
  | nil => intro u v c _ _; simp
  | cons p pt ih =>
    intro u v c hc h
    cases u with
    | nil =>
      rw [List.nil_append, List.cons_prefix_cons] at h
      exact absurd (h.1 ▸ List.mem_cons_self p pt) hc
    | cons x u' =>
      rw [List.cons_append, List.cons_prefix_cons] at h
      rw [List.cons_prefix_cons]
      exact ⟨h.1, ih u' v c (fun hm => hc (List.mem_cons_of_mem _ hm)) h.2⟩

theorem containsSub_append_cons (pat : Chars) (c : Char) (hc : c ∉ pat) :
    ∀ (u v : Chars), containsSub pat (u ++ c :: v) = true →
      containsSub pat u = true ∨ containsSub pat v = true := by
  intro u
  induction u with
  | nil =>
    intro v h
    simp only [List.nil_append, containsSub, Bool.or_eq_true] at h
    rcases h with hp | hr
    · rw [List.isPrefixOf_iff_prefix] at hp
      cases pat with
      | nil => left; simp [containsSub]
      | cons p pt =>
        rw [List.cons_prefix_cons] at hp
        exact absurd (hp.1 ▸ List.mem_cons_self p pt) hc
    · right; exact hr
  | cons x u' ih =>
    intro v h
    simp only [List.cons_append, containsSub, Bool.or_eq_true] at h
    rcases h with hp | hr
    · rw [List.isPrefixOf_iff_prefix] at hp
      have h2 : pat <+: (x :: u') ++ c :: v := by simpa using hp
      have h3 := prefix_append_cons pat (x :: u') v c hc h2
      left
      simp [containsSub, List.isPrefixOf_iff_prefix, h3]
    · rcases ih v hr with h1 | h1
      · left; simp [containsSub, h1]
      · right; exact h1

theorem not_contains_append_cons (pat : Chars) (c : Char) (u v : Chars)
    (hc : c ∉ pat) (hu : containsSub pat u = false)
    (hv : containsSub pat v = false) :
    containsSub pat (u ++ c :: v) = false := by
  by_contra hcon
  rw [Bool.not_eq_false] at hcon
  rcases containsSub_append_cons pat c hc u v hcon with h | h
  · rw [h] at hu; cases hu
  · rw [h] at hv; cases hv

theorem not_contains_append_single (pat : Chars) (c : Char) (u : Chars)
    (hne : pat ≠ []) (hc : c ∉ pat) (hu : containsSub pat u = false) :
    containsSub pat (u ++ [c]) = false := by
  have hnil : containsSub pat [] = false := by
    simp [containsSub, List.isEmpty_iff, hne]
  exact not_contains_append_cons pat c u [] hc hu hnil

theorem joinNL_not_contains (pat : Chars) (hne : pat ≠ []) (hnl : '\n' ∉ pat) :
    ∀ ls : List Chars, (∀ l ∈ ls, containsSub pat l = false) →
      containsSub pat (joinNL ls) = false := by
  intro ls
  induction ls with
  | nil =>
    intro _
    simp [joinNL, containsSub, List.isEmpty_iff, hne]
  | cons l ls ih =>
    intro h
    cases ls with
    | nil =>
      simpa [joinNL] using h l (by simp)
    | cons l2 r =>
      simp only [joinNL]
      exact not_contains_append_cons pat '\n' l (joinNL (l2 :: r)) hnl
        (h l (by simp))
        (ih (fun x hx => h x (List.mem_cons_of_mem _ hx)))

theorem pyRstrip_prefix_self (s : Chars) : pyRstrip s <+: s := by
  unfold pyRstrip
  conv_rhs => rw [← List.reverse_reverse s]
  rw [ List.reverse_prefix]
  exact List.dropWhile_suffix _

theorem pyStrip_within (s : Chars) : pyStrip s <:+: s := by
  unfold pyStrip
  have h1 : pyRstrip (pyLstrip s) <+: pyLstrip s := pyRstrip_prefix_self _
  have h2 : pyLstrip s <:+ s := List.dropWhile_suffix _
  exact h1.isInfix.trans h2.isInfix

theorem pyStrip_nil_of_nil (s : Chars) (h : s = []) : pyStrip s = [] := by
  subst h
  rfl

theorem mem_pySplitlinesGo :
    ∀ (cur s : Chars), (∀ c ∈ cur, c ≠ '\n' ∧ c ≠ '\r') →
      ∀ l ∈ pySplitlinesGo cur s,
        (∀ c ∈ l, c ≠ '\n' ∧ c ≠ '\r') ∧ l <:+: cur.reverse ++ s := by
  intro cur s
  induction cur, s using pySplitlinesGo.induct with
  | case1 cur =>
    intro hcur l hl
    simp only [pySplitlinesGo, List.mem_singleton] at hl
    subst hl
    exact ⟨fun c hc => hcur c (by simpa using hc), (List.prefix_append _ _).isInfix⟩
  | case2 cur rest ih =>
    intro hcur l hl
    simp only [pySplitlinesGo] at hl
    rcases List.mem_cons.mp hl with rfl | hl2
    · exact ⟨fun c hc => hcur c (by simpa using hc), (List.prefix_append _ _).isInfix⟩
    · split at hl2
      · cases hl2
      · obtain ⟨hchars, hinf⟩ := ih (by simp) l hl2
        refine ⟨hchars, (by simpa using hinf : l <:+: rest).trans ?_⟩
        have hsuf : rest <:+ cur.reverse ++ '\r' :: '\n' :: rest :=
          ⟨cur.reverse ++ ['\r', '\n'], by simp⟩
        exact hsuf.isInfix
  | case3 cur rest ih =>
    intro hcur l hl
    simp only [pySplitlinesGo] at hl
    rcases List.mem_cons.mp hl with rfl | hl2
    · exact ⟨fun c hc => hcur c (by simpa using hc), (List.prefix_append _ _).isInfix⟩
    · split at hl2
      · cases hl2
      · obtain ⟨hchars, hinf⟩ := ih (by simp) l hl2
        refine ⟨hchars, (by simpa using hinf : l <:+: rest).trans ?_⟩
        have hsuf : rest <:+ cur.reverse ++ '\n' :: rest :=
          ⟨cur.reverse ++ ['\n'], by simp⟩
        exact hsuf.isInfix
  | case4 cur rest hno ih =>
    intro hcur l hl
    rw [show pySplitlinesGo cur ('\r' :: rest)
        = cur.reverse :: (if rest.isEmpty then [] else pySplitlinesGo [] rest) from by
      cases rest with
      | nil => simp [pySplitlinesGo]
      | cons r2 rest2 =>
        have : r2 ≠ '\n' := fun hcon => hno rest2 (by rw [hcon])
        simp [pySplitlinesGo, this]] at hl
    rcases List.mem_cons.mp hl with rfl | hl2
    · exact ⟨fun c hc => hcur c (by simpa using hc), (List.prefix_append _ _).isInfix⟩
    · split at hl2
      · cases hl2
      · obtain ⟨hchars, hinf⟩ := ih (by simp) l hl2
        refine ⟨hchars, (by simpa using hinf : l <:+: rest).trans ?_⟩
        have hsuf : rest <:+ cur.reverse ++ '\r' :: rest :=
          ⟨cur.reverse ++ ['\r'], by simp⟩
        exact hsuf.isInfix
  | case5 cur c rest hno hn hr ih =>
    intro hcur l hl
    have hc1 : c ≠ '\n' := hn
    have hc2 : c ≠ '\r' := hr
    rw [show pySplitlinesGo cur (c :: rest) = pySplitlinesGo (c :: cur) rest from by
      simp [pySplitlinesGo, hc1, hc2]] at hl
    have hcur2 : ∀ x ∈ c :: cur, x ≠ '\n' ∧ x ≠ '\r' := by
      intro x hx
      rcases List.mem_cons.mp hx with rfl | hx2
      · exact ⟨hc1, hc2⟩
      · exact hcur x hx2
    obtain ⟨hchars, hinf⟩ := ih hcur2 l hl
    refine ⟨hchars, ?_⟩
    have : (c :: cur).reverse ++ rest = cur.reverse ++ c :: rest := by simp
    rw [this] at hinf
    exact hinf

theorem mem_pySplitlines (s l : Chars) (hl : l ∈ pySplitlines s) :
    (∀ c ∈ l, c ≠ '\n' ∧ c ≠ '\r') ∧ l <:+: s := by
  unfold pySplitlines at hl
  split at hl
  · cases hl
  · simpa using mem_pySplitlinesGo [] s (by simp) l hl

theorem pySplitlinesGo_no_newline :
    ∀ (m cur : Chars), (∀ c ∈ m, c ≠ '\n' ∧ c ≠ '\r') →
      pySplitlinesGo cur m = [cur.reverse ++ m] := by
  intro m
  induction m with
  | nil => intro cur _; simp [pySplitlinesGo]
  | cons c rest ih =>
    intro cur hm
    have hc := hm c (by simp)
    rw [show pySplitlinesGo cur (c :: rest) = pySplitlinesGo (c :: cur) rest from by
      simp [pySplitlinesGo, hc.1, hc.2]]
    rw [ih (c :: cur) (fun x hx => hm x (List.mem_cons_of_mem _ hx))]
    simp

theorem pySplitlinesGo_append_newline :
    ∀ (l cur t : Chars), (∀ c ∈ l, c ≠ '\n' ∧ c ≠ '\r') →
      pySplitlinesGo cur (l ++ '\n' :: t)
        = (cur.reverse ++ l) :: (if t.isEmpty then [] else pySplitlinesGo [] t) := by
  intro l
  induction l with
  | nil => intro cur t _; simp [pySplitlinesGo]
  | cons c rest ih =>
    intro cur t hm
    have hc := hm c (by simp)
    rw [List.cons_append]
    rw [show pySplitlinesGo cur (c :: (rest ++ '\n' :: t))
        = pySplitlinesGo (c :: cur) (rest ++ '\n' :: t) from by
      simp [pySplitlinesGo, hc.1, hc.2]]
    rw [ih (c :: cur) t (fun x hx => hm x (List.mem_cons_of_mem _ hx))]
    simp

theorem joinNL_ne_nil (a : Chars) (bs : List Chars) (h : a ≠ []) :
    joinNL (a :: bs) ≠ [] := by
  cases bs with
  | nil => simpa [joinNL] using h
  | cons b bs' => simp [joinNL]

theorem pySplitlines_joinNL :
    ∀ ls : List Chars,
      (∀ l ∈ ls, l ≠ [] ∧ ∀ c ∈ l, c ≠ '\n' ∧ c ≠ '\r') →
      pySplitlines (joinNL ls) = ls := by
  intro ls
  induction ls with
  | nil => intro _; simp [joinNL, pySplitlines]
  | cons l ls ih =>
    intro h
    obtain ⟨hl0, hlc⟩ := h l (by simp)
    cases ls with
    | nil =>
      simp only [joinNL]
      unfold pySplitlines
      rw [if_neg (by simpa [List.isEmpty_iff] using hl0)]
      rw [pySplitlinesGo_no_newline l [] hlc]
      simp
    | cons l2 r =>
      simp only [joinNL]
      unfold pySplitlines
      rw [if_neg (by simp [List.isEmpty_iff])]
      rw [pySplitlinesGo_append_newline l [] (joinNL (l2 :: r)) hlc]
      have hjn : joinNL (l2 :: r) ≠ [] := joinNL_ne_nil l2 r (h l2 (by simp)).1
      rw [if_neg (by simpa [List.isEmpty_iff] using hjn)]
      have hih := ih (fun x hx => h x (List.mem_cons_of_mem _ hx))
      unfold pySplitlines at hih
      rw [if_neg (by simpa [List.isEmpty_iff] using hjn)] at hih
      rw [hih]
      simp

theorem mem_buildClean :
    ∀ (lines : List Chars) (l : Chars), l ∈ buildClean lines →
      l ∈ lines ∧ lineIsComment l = false ∧ (pyStrip l).isEmpty = false := by
  intro lines
  induction lines with
  | nil => intro l hl; cases hl
  | cons line rest ih =>
    intro l hl
    simp only [buildClean] at hl
    split at hl
    · obtain ⟨h1, h2, h3⟩ := ih l hl
      exact ⟨List.mem_cons_of_mem _ h1, h2, h3⟩
    · rename_i hcomment
      rcases List.mem_append.mp hl with h1 | h1
      · split at h1
        · cases h1
        · rename_i hstrip
          rcases List.mem_singleton.mp h1 with rfl
          exact ⟨List.mem_cons_self _ _,
            Bool.not_eq_true _ ▸ (by simpa using hcomment),
            by simpa using hstrip⟩
      · split at h1
        · cases h1
        · obtain ⟨g1, g2, g3⟩ := ih l h1
          exact ⟨List.mem_cons_of_mem _ g1, g2, g3⟩

theorem dropWhile_append_single (c : Char) (tw : Chars) (hc : isSpaceChar c = false) :
    (tw ++ [c]).dropWhile isSpaceChar = tw.dropWhile isSpaceChar ++ [c] := by
  rw [List.dropWhile_append]
  by_cases hemp : (tw.dropWhile isSpaceChar).isEmpty
  · rw [if_pos hemp]
    rw [List.isEmpty_iff] at hemp
    rw [hemp]
    simp [List.dropWhile_cons, hc]
  · rw [if_neg hemp]

theorem prefix_pyStrip_iff (pat x : Chars) (hne : pat ≠ [])
    (hsp : ∀ c ∈ pat, isSpaceChar c = false) :
    pat <+: pyStrip x ↔ pat <+: pyLstrip x := by
  constructor
  · intro h
    exact h.trans (pyRstrip_prefix_self (pyLstrip x))
  · intro h
    obtain ⟨t, ht⟩ := h
    unfold pyStrip
    rw [← ht]
    unfold pyRstrip
    rw [List.reverse_append, List.dropWhile_append]
    by_cases hemp : (t.reverse.dropWhile isSpaceChar).isEmpty
    · rw [if_pos hemp]
      have hrev : pat.reverse.dropWhile isSpaceChar = pat.reverse := by
        cases hp : pat.reverse with
        | nil => simp
        | cons a as =>
          have ha : isSpaceChar a = false := by
            apply hsp
            have hmm : a ∈ pat.reverse := by rw [hp]; simp
            simpa using hmm
          simp [List.dropWhile_cons, ha]
      rw [hrev, List.reverse_reverse]
    · rw [if_neg hemp, List.reverse_append, List.reverse_reverse]
      exact List.prefix_append _ _

theorem pat_prefix_truncate (pat l tw : Chars) (hne : pat ≠ [])
    (hsp : ∀ c ∈ pat, isSpaceChar c = false) (hsemi : ';' ∉ pat)
    (htw : tw <+: l)
    (h : pat.isPrefixOf (pyStrip l) = false) :
    pat.isPrefixOf (pyStrip (tw ++ [';'])) = false := by
  by_contra hcon
  rw [Bool.not_eq_false, List.isPrefixOf_iff_prefix] at hcon
  rw [prefix_pyStrip_iff pat _ hne hsp] at hcon
  unfold pyLstrip at hcon
  rw [dropWhile_append_single ';' tw (by decide)] at hcon
  have hc2 : pat <+: tw.dropWhile isSpaceChar :=
    prefix_append_cons pat _ [] ';' hsemi (by simpa using hcon)
  obtain ⟨r, hr⟩ := htw
  have hl2 : pat <+: pyLstrip l := by
    rw [← hr]
    unfold pyLstrip
    rw [List.dropWhile_append]
    by_cases hemp : (tw.dropWhile isSpaceChar).isEmpty
    · rw [List.isEmpty_iff] at hemp
      rw [hemp] at hc2
      exact absurd (List.prefix_nil.mp hc2) hne
    · rw [if_neg (by simpa using hemp)]
      exact hc2.trans (List.prefix_append _ _)
  rw [← prefix_pyStrip_iff pat l hne hsp, ← List.isPrefixOf_iff_prefix] at hl2
  rw [hl2] at h
  cases h

theorem lineIsComment_truncate (l tw : Chars) (htw : tw <+: l)
    (h : lineIsComment l = false) : lineIsComment (tw ++ [';']) = false := by
  unfold lineIsComment at h ⊢
  rw [Bool.or_eq_false_iff] at h ⊢
  exact ⟨pat_prefix_truncate commentDashes l tw (by decide) (by decide) (by decide)
           htw h.1,
         pat_prefix_truncate commentHash l tw (by decide) (by decide) (by decide)
           htw h.2⟩

theorem takeWhile_append_stop (p : Char → Bool) :
    ∀ (l r : Chars), (∃ x ∈ l, p x = false) →
      (l ++ r).takeWhile p = l.takeWhile p := by
  intro l
  induction l with
  | nil =>
    intro r h
    rcases h with ⟨x, hx, _⟩
    cases hx
  | cons a l' ih =>
    intro r h
    rw [List.cons_append, List.takeWhile_cons, List.takeWhile_cons]
    cases hpa : p a with
    | false => simp
    | true =>
      simp only [if_true]
      obtain ⟨x, hx, hpx⟩ := h
      have hx2 : x ∈ l' := by
        rcases List.mem_cons.mp hx with rfl | h2
        · rw [hpa] at hpx; cases hpx
        · exact h2
      rw [ih r ⟨x, hx2, hpx⟩]

theorem pySplitlines_append_newline (l t : Chars)
    (hlc : ∀ c ∈ l, c ≠ '\n' ∧ c ≠ '\r') (ht : t ≠ []) :
    pySplitlines (l ++ '\n' :: t) = l :: pySplitlines t := by
  unfold pySplitlines
  rw [if_neg (by simp [List.isEmpty_iff])]
  rw [pySplitlinesGo_append_newline l [] t hlc]
  simp [List.isEmpty_iff, ht]

theorem semiTrunc_single (l : Chars)
    (hlc : ∀ c ∈ l, c ≠ '\n' ∧ c ≠ '\r') (hlcom : lineIsComment l = false) :
    ∀ m ∈ pySplitlines (l.takeWhile (fun c => c != ';') ++ [';']),
      lineIsComment m = false := by
  intro m hm
  have hsp : pySplitlines (l.takeWhile (fun c => c != ';') ++ [';'])
      = [l.takeWhile (fun c => c != ';') ++ [';']] := by
    unfold pySplitlines
    rw [if_neg (by simp [List.isEmpty_iff])]
    rw [pySplitlinesGo_no_newline _ [] ?_]
    · simp
    · intro c hc
      rcases List.mem_append.mp hc with h1 | h1
      · exact hlc c ( List.takeWhile_subset _ h1)
      · rcases List.mem_singleton.mp h1 with rfl
        exact ⟨by decide, by decide⟩
  rw [hsp] at hm
  rcases List.mem_singleton.mp hm with rfl
  exact lineIsComment_truncate l _ ( List.takeWhile_prefix _) hlcom

theorem semiTrunc_lines :
    ∀ cls : List Chars,
      (∀ l ∈ cls, l ≠ [] ∧ (∀ c ∈ l, c ≠ '\n' ∧ c ≠ '\r') ∧ lineIsComment l = false) →
      ';' ∈ joinNL cls →
      ∀ m ∈ pySplitlines ((joinNL cls).takeWhile (fun c => c != ';') ++ [';']),
        lineIsComment m = false := by
  intro cls
  induction cls with
  | nil =>
    intro _ hsemi
    simp [joinNL] at hsemi
  | cons l ls ih =>
    intro hmem hsemi
    obtain ⟨hl0, hlc, hlcom⟩ := hmem l (by simp)
    cases ls with
    | nil =>
      simp only [joinNL] at hsemi ⊢
      exact semiTrunc_single l hlc hlcom
    | cons l2 r =>
      by_cases hin : ';' ∈ l
      · simp only [joinNL]
        rw [takeWhile_append_stop _ l ('\n' :: joinNL (l2 :: r))
          ⟨';', hin, by decide⟩]
        exact semiTrunc_single l hlc hlcom
      · have hall : ∀ x ∈ l, (fun c => c != ';') x = true := by
          intro x hx
          simp only [bne_iff_ne, ne_eq]
          intro hcon
          subst hcon
          exact hin hx
        simp only [joinNL] at hsemi ⊢
        rw [List.takeWhile_append_of_pos hall, List.takeWhile_cons, if_pos (by decide)]
        have hsemi2 : ';' ∈ joinNL (l2 :: r) := by
          rcases List.mem_append.mp hsemi with h1 | h1
          · exact absurd h1 hin
          · rcases List.mem_cons.mp h1 with hc | hc
            · cases hc
            · exact hc
        intro m hm
        rw [show l ++ '\n' :: (joinNL (l2 :: r)).takeWhile (fun c => c != ';') ++ [';']
            = l ++ '\n' :: ((joinNL (l2 :: r)).takeWhile (fun c => c != ';') ++ [';'])
          from by simp] at hm
        rw [pySplitlines_append_newline l _ hlc (by simp)] at hm
        rcases List.mem_cons.mp hm with rfl | hm2
        · exact hlcom
        · exact ih (fun x hx => hmem x (List.mem_cons_of_mem _ hx)) hsemi2 m hm2

theorem processLines_semis (x : Chars) :
    List.count ';' (processLines x).dropLast = 0 ∧
    List.count ';' (processLines x) ≤ 1 := by
  simp only [processLines]
  by_cases hsem : containsSub [';'] (joinNL (buildClean (pySplitlines x))) = true
  · rw [if_pos hsem]
    have htw : ';' ∉ (joinNL (buildClean (pySplitlines x))).takeWhile
        (fun c => c != ';') := by
      intro hmem
      have := List.mem_takeWhile_imp hmem
      simp at this
    constructor
    · rw [List.dropLast_concat]
      exact List.count_eq_zero.mpr htw
    · rw [List.count_append]
      have h0 : List.count ';'
          ((joinNL (buildClean (pySplitlines x))).takeWhile (fun c => c != ';')) = 0 :=
        List.count_eq_zero.mpr htw
      simp [h0]
  · rw [if_neg hsem]
    have hnot : ';' ∉ joinNL (buildClean (pySplitlines x)) := by
      intro hmem
      exact hsem ((containsSub_singleton _ _).mpr hmem)
    constructor
    · exact List.count_eq_zero.mpr
        (fun hmem => hnot ((List.dropLast_sublist _).subset hmem))
    · rw [List.count_eq_zero.mpr hnot]
      omega

theorem buildClean_line_facts (x : Chars) :
    ∀ l ∈ buildClean (pySplitlines x),
      l ≠ [] ∧ (∀ c ∈ l, c ≠ '\n' ∧ c ≠ '\r') ∧ lineIsComment l = false := by
  intro l hl
  obtain ⟨h1, h2, h3⟩ := mem_buildClean (pySplitlines x) l hl
  obtain ⟨hchars, _⟩ := mem_pySplitlines x l h1
  refine ⟨?_, hchars, h2⟩
  intro hnil
  rw [pyStrip_nil_of_nil l hnil] at h3
  simp at h3

theorem processLines_lines (x : Chars) :
    ∀ m ∈ pySplitlines (processLines x), lineIsComment m = false := by
  simp only [processLines]
  by_cases hsem : containsSub [';'] (joinNL (buildClean (pySplitlines x))) = true
  · rw [if_pos hsem]
    exact semiTrunc_lines _ (buildClean_line_facts x)
      ((containsSub_singleton _ _).mp hsem)
  · rw [if_neg hsem]
    rw [pySplitlines_joinNL _
      (fun l hl => ⟨(buildClean_line_facts x l hl).1,
                    (buildClean_line_facts x l hl).2.1⟩)]
    intro m hm
    exact (buildClean_line_facts x m hm).2.2

theorem processLines_fence_free (x : Chars) (h : containsSub fence x = false) :
    containsSub fence (processLines x) = false := by
  have hjoin : containsSub fence (joinNL (buildClean (pySplitlines x))) = false := by
    apply joinNL_not_contains fence (by decide) (by decide)
    intro l hl
    obtain ⟨h1, _, _⟩ := mem_buildClean _ l hl
    obtain ⟨_, hinf⟩ := mem_pySplitlines x l h1
    exact not_containsSub_mono fence l x hinf h
  simp only [processLines]
  by_cases hsem : containsSub [';'] (joinNL (buildClean (pySplitlines x))) = true
  · rw [if_pos hsem]
    apply not_contains_append_single fence ';' _ (by decide) (by decide)
    exact not_containsSub_mono fence _ _ ( List.takeWhile_prefix _).isInfix hjoin
  · rw [if_neg hsem]
    exact hjoin

theorem extractFenced_eq_of_no_fence (s : Chars)
    (h : containsSub fence s = false) : extractFenced s = s := by
  have h1 : containsSub fenceSql s = false := by
    by_contra hcon
    rw [Bool.not_eq_false] at hcon
    rw [contains_fence_of_fenceSql s hcon] at h
    cases h
  unfold extractFenced
  rw [if_neg (by simp [h1]), if_neg (by simp [h])]

theorem extractFenced_block_sql (s : Chars) (i j : Nat)
    (h1 : findSub fenceSql s = some i)
    (h2 : findSub fence (s.drop (i + fenceSql.length)) = some j) :
    extractFenced s = pyStrip ((s.drop (i + fenceSql.length)).take j) := by
  unfold extractFenced
  rw [if_pos (contains_of_findSub_some _ _ _ h1)]
  simp only [h1, h2]

theorem extractFenced_block_any (s : Chars) (i j : Nat)
    (h0 : containsSub fenceSql s = false)
    (h1 : findSub fence s = some i)
    (h2 : findSub fence (s.drop (i + fence.length)) = some j) :
    extractFenced s = pyStrip ((s.drop (i + fence.length)).take j) := by
  unfold extractFenced
  rw [if_neg (by simp [h0])]
  rw [if_pos (contains_of_findSub_some _ _ _ h1)]
  simp only [h1, h2]

theorem fenced_content_fence_free (s : Chars) (k j : Nat)
    (h2 : findSub fence (s.drop k) = some j) :
    containsSub fence (pyStrip ((s.drop k).take j)) = false := by
  have htake := not_contains_take fence (s.drop k) j (by decide) h2
  exact not_containsSub_mono fence _ _ (pyStrip_within _) htake

/-- Claim C8 counterexample: on the input consisting of a ```sql fence
opener with no closing fence, `_extract_clean_sql` returns text that
still contains the fence marker, refuting "returns text that contains no
markdown fence markers". -/
theorem extract_clean_sql_counterexample :
    containsSub fence (pyExtractCleanSql ("```sql\nSELECT 1").toList) = true := by
  decide

/-- Claim C8 (amended): for every input, `_extract_clean_sql` returns
text with no semicolon before its last character (so at most one `;`,
everything after the first semicolon having been dropped) and no line
whose stripped form starts with `--` or `#`; when the input contains a
```sql fenced block closed by a later fence marker, the result is
obtained by running the line-filtering pipeline on exactly the
whitespace-stripped content of the first such block and contains no
fence marker (likewise for a closed plain fence when no ```sql opener
occurs, and for fence-free inputs the output is fence-free); however an
unclosed fence marker survives into the output (see the
counterexample). -/
theorem extract_clean_sql_contract (s : Chars) :
    List.count ';' (pyExtractCleanSql s).dropLast = 0 ∧
    List.count ';' (pyExtractCleanSql s) ≤ 1 ∧
    (∀ m ∈ pySplitlines (pyExtractCleanSql s), lineIsComment m = false) ∧
    (containsSub fence s = false →
      containsSub fence (pyExtractCleanSql s) = false) ∧
    (∀ i j, findSub fenceSql s = some i →
      findSub fence (s.drop (i + fenceSql.length)) = some j →
      pyExtractCleanSql s
        = processLines (pyStrip ((s.drop (i + fenceSql.length)).take j)) ∧
      containsSub fence (pyExtractCleanSql s) = false) ∧
    (∀ i j, containsSub fenceSql s = false → findSub fence s = some i →
      findSub fence (s.drop (i + fence.length)) = some j →
      pyExtractCleanSql s
        = processLines (pyStrip ((s.drop (i + fence.length)).take j)) ∧
      containsSub fence (pyExtractCleanSql s) = false) := by
  refine ⟨(processLines_semis (extractFenced s)).1,
          (processLines_semis (extractFenced s)).2,
          processLines_lines (extractFenced s), ?_, ?_, ?_⟩
  · intro h
    simp only [pyExtractCleanSql]
    rw [extractFenced_eq_of_no_fence s h]
    exact processLines_fence_free s h
  · intro i j h1 h2
    have heq := extractFenced_block_sql s i j h1 h2
    refine ⟨by simp only [pyExtractCleanSql, heq], ?_⟩
    simp only [pyExtractCleanSql, heq]
    exact processLines_fence_free _ (fenced_content_fence_free s _ j h2)
  · intro i j h0 h1 h2
    have heq := extractFenced_block_any s i j h0 h1 h2
    refine ⟨by simp only [pyExtractCleanSql, heq], ?_⟩
    simp only [pyExtractCleanSql, heq]
    exact processLines_fence_free _ (fenced_content_fence_free s _ j h2)

/-- Witness for C8 (amended claim) on a complete ```sql block. -/
theorem extract_clean_sql_contract_witness :
    pyExtractCleanSql ("```sql\nSELECT 1;\n```").toList
      = processLines (pyStrip
          (((("```sql\nSELECT 1;\n```").toList).drop (0 + fenceSql.length)).take 11)) ∧
    containsSub fence (pyExtractCleanSql ("```sql\nSELECT 1;\n```").toList) = false :=
  (extract_clean_sql_contract _).2.2.2.2.1 0 11 (by decide) (by decide)

/-- Claim C7 counterexample: a model-backend failure propagates out of
`generate_sql` as an exception (Anthropic's `ainvoke` is unguarded, and
OpenAI's LangChain fallback is unguarded too), rather than degrading to
empty SQL. -/
theorem generate_sql_backend_counterexample :
    anthropicGenerateSql (.error "backend down") = .error "backend down" ∧
    openaiGenerateSql (.error "instructor down") (.error "langchain down")
      = .error "langchain down" :=
  ⟨rfl, rfl⟩

/-- Claim C7 (amended): for every model response text, the provider
response parsing returns a `(reasoning, sql)` pair and never fails; when
the response contains neither the `Reasoning:`/`SQL:` marker pair nor
the substring `SELECT` (case-insensitive), the returned `sql` is empty
and the returned `reasoning` is the full raw response.  A model backend
failure, however, is not degraded: it propagates out of `generate_sql`
as an exception (caught only at the orchestrator's outer boundary). -/
theorem generate_sql_parse_contract (text : Chars) :
    anthropicGenerateSql (.ok text) = .ok (parseResponse text) ∧
    (∀ ir, openaiGenerateSql (.error ir) (.ok text) = .ok (parseResponse text)) ∧
    ((containsSub reasoningMarker text && containsSub sqlMarker text) = false →
      containsSub selectPat (pyUpper text) = false →
      parseResponse text = (text, [])) := by
  refine ⟨rfl, fun ir => rfl, ?_⟩
  intro h1 h2
  simp [parseResponse, h1, h2]

/-- Witness for C7 (amended claim) on a marker-free, SELECT-free
response. -/
theorem generate_sql_parse_witness :
    anthropicGenerateSql (.ok ("no structured output").toList)
      = .ok (parseResponse ("no structured output").toList) ∧
    parseResponse ("no structured output").toList
      = (("no structured output").toList, []) :=
  ⟨(generate_sql_parse_contract _).1,
   (generate_sql_parse_contract _).2.2 (by decide) (by decide)⟩

end TextToSql
